import Mathlib

/-!
Verification of the grasp-synthesis repository.

Pipeline A (mask-based, grasp_mask.py) is embedded over ℚ/ℤ where the code is
integer/array arithmetic, and over ℝ for the trigonometric rotation transform.
Pipeline B (boundary-fit, pyefd.py) is embedded over ℝ.
Python int() truncation, np.uint8 casts, list slicing and the stable stdlib
sort are modelled explicitly.
-/

/-- Python int() applied to a rational: truncation toward zero. -/
def pyInt (q : ℚ) : ℤ := if 0 ≤ q then ⌊q⌋ else -⌊-q⌋

/-- Dimension argument of np.ones: Python int() of a nonnegative size. -/
def pyNat (q : ℚ) : ℕ := (pyInt q).toNat

/-- np.uint8 cast of a rational value: integer part reduced mod 256. -/
def pyUint8 (q : ℚ) : ℤ := pyInt q % 256

/-- A 2D numpy array of rationals (row count, column count, entries). -/
structure Mat where
  rows : ℕ
  cols : ℕ
  entry : ℕ → ℕ → ℚ

/-- np.ones((r, c)). -/
def npOnes (r c : ℕ) : Mat := ⟨r, c, fun _ _ => 1⟩

/-- Elementwise scaling of a matrix by a scalar. -/
def matScale (q : ℚ) (m : Mat) : Mat := ⟨m.rows, m.cols, fun i j => q * m.entry i j⟩

/-- np.concatenate((A, B), axis=0) for matrices of equal column count. -/
def vcat (A B : Mat) : Mat :=
  ⟨A.rows + B.rows, A.cols, fun i j => if i < A.rows then A.entry i j else B.entry (i - A.rows) j⟩

/-- One mask of GraspMask.generate_masks (grasp_mask.py lines 45-52): five
horizontal bands np.ones((int(s/5), int(3*s/5))) scaled by -1, 0, 1, 0, -1,
concatenated along axis 0, divided by (3/2)*s*s and scaled by the weight. -/
def buildMask (s w : ℚ) : Mat :=
  matScale w (matScale (1 / ((3 / 2) * s * s))
    (vcat (matScale (-1) (npOnes (pyNat (s / 5)) (pyNat (3 * s / 5))))
      (vcat (matScale 0 (npOnes (pyNat (s / 5)) (pyNat (3 * s / 5))))
        (vcat (matScale 1 (npOnes (pyNat (s / 5)) (pyNat (3 * s / 5))))
          (vcat (matScale 0 (npOnes (pyNat (s / 5)) (pyNat (3 * s / 5))))
            (matScale (-1) (npOnes (pyNat (s / 5)) (pyNat (3 * s / 5)))))))))

/-- The configured mask sizes [1024/i for i in range(4, 20, 4)] (grasp_mask.py line 35). -/
def repoMaskSizes : List ℚ := (List.range' 4 4 4).map (fun (i : ℕ) => 1024 / (i : ℚ))

/-- The configured weights [1, 2, 3, 4, 5] (grasp_mask.py line 36). -/
def repoWeights : List ℚ := [1, 2, 3, 4, 5]

/-- GraspMask.generate_masks (grasp_mask.py lines 42-53): the loop runs over
the indices of the size list and reads weights[i]; a missing weight raises
IndexError, modelled as none. -/
def generateMasks : List ℚ → List ℚ → Option (List Mat)
  | [], _ => some []
  | _ :: _, [] => none
  | s :: ss, w :: ws => (generateMasks ss ws).map (fun l => buildMask s w :: l)

/-- np.min of a flattened depth image (0 on the empty image, unreached). -/
def npMin : List ℚ → ℚ
  | [] => 0
  | a :: l => l.foldl min a

/-- np.max of a flattened depth image (0 on the empty image, unreached). -/
def npMax : List ℚ → ℚ
  | [] => 0
  | a :: l => l.foldl max a

/-- One pixel of GraspMask.normalize_depth (grasp_mask.py lines 68-69):
(a - min) * 255 / (max - min) cast through np.uint8. -/
def normPix (img : List ℚ) (a : ℚ) : ℤ :=
  pyUint8 ((a - npMin img) * 255 / (npMax img - npMin img))

/-- GraspMask.normalize_depth on the flattened depth image. -/
def normalizeDepth (img : List ℚ) : List ℤ := img.map (normPix img)

/-- The three scoring modes of GraspMaskMode (grasp_mask.py lines 9-19). -/
inductive GraspMaskMode
  | allRotations
  | majorComponentImage
  | majorComponentMask
deriving DecidableEq

/-- The configured angle list np.arange(-90, 90, 5).tolist() (grasp_mask.py line 32). -/
def defaultAngles : List ℝ := (List.range 36).map (fun (i : ℕ) => -90 + 5 * (i : ℝ))

/-- The update get_grasp applies to self.angles (grasp_mask.py lines 93-98):
append the principal-axis angle in ALL_ROTATIONS mode, overwrite with the
single angle in MAJOR_COMPONENT_IMAGE mode, overwrite with [0] otherwise. -/
def updateAngles : GraspMaskMode → List ℝ → ℝ → List ℝ
  | GraspMaskMode.allRotations, angles, a => angles ++ [a]
  | GraspMaskMode.majorComponentImage, _, a => [a]
  | GraspMaskMode.majorComponentMask, _, _ => [0]

/-- A grasp candidate tuple (score, x, y, mask height, mask width, angle)
as appended at grasp_mask.py line 119. -/
abbrev GraspCandidate := ℚ × ℤ × ℤ × ℕ × ℕ × ℚ

instance : IsTotal GraspCandidate (fun a b => b.1 ≤ a.1) := ⟨fun a b => le_total b.1 a.1⟩

instance : IsTrans GraspCandidate (fun a b => b.1 ≤ a.1) := ⟨fun _ _ _ h1 h2 => le_trans h2 h1⟩

/-- sorted(best_grasps, key=lambda x: x[0], reverse=True) (grasp_mask.py
line 122): the Python built-in stable sort, descending by score, modelled by
stable insertion sort. -/
def sortCandidates (l : List GraspCandidate) : List GraspCandidate :=
  List.insertionSort (fun a b => b.1 ≤ a.1) l

/-- cv2.getRotationMatrix2D(c, angle, 1.0) applied to a point p: the angle is
in degrees, alpha = cos, beta = sin, and the matrix is
[[alpha, beta, (1-alpha)*cx - beta*cy], [-beta, alpha, beta*cx + (1-alpha)*cy]]
(used at grasp_mask.py lines 104-105 and 143). -/
noncomputable def cvRotate (θ : ℝ) (c p : ℝ × ℝ) : ℝ × ℝ :=
  (Real.cos (θ * Real.pi / 180) * p.1 + Real.sin (θ * Real.pi / 180) * p.2 +
      ((1 - Real.cos (θ * Real.pi / 180)) * c.1 - Real.sin (θ * Real.pi / 180) * c.2),
    -Real.sin (θ * Real.pi / 180) * p.1 + Real.cos (θ * Real.pi / 180) * p.2 +
      (Real.sin (θ * Real.pi / 180) * c.1 + (1 - Real.cos (θ * Real.pi / 180)) * c.2))

/-- Dot product of two 2D vectors. -/
def dot2 (u v : ℝ × ℝ) : ℝ := u.1 * v.1 + u.2 * v.2

/-- np.linalg.norm of a 2D vector. -/
noncomputable def norm2 (u : ℝ × ℝ) : ℝ := Real.sqrt (u.1 ^ 2 + u.2 ^ 2)

/-- Euclidean distance of two 2D points, np.sqrt(np.sum(diff**2)). -/
noncomputable def pdist (p q : ℝ × ℝ) : ℝ :=
  Real.sqrt ((q.1 - p.1) ^ 2 + (q.2 - p.2) ^ 2)

/-- The angle quantity of pyefd.py line 220:
np.arccos(dot / (norm * norm)) * 180 / 3.14.  Note the conversion constant is
the literal 3.14 of the source, not pi. -/
noncomputable def angleCode (u v : ℝ × ℝ) : ℝ :=
  Real.arccos (dot2 u v / (norm2 u * norm2 v)) * 180 / 3.14

/-- The true angle between two vectors in degrees (exact conversion by pi),
used to state the specification claim about the normal angle. -/
noncomputable def normalAngleDeg (u v : ℝ × ℝ) : ℝ :=
  Real.arccos (dot2 u v / (norm2 u * norm2 v)) * 180 / Real.pi

/-- np.mean of the first n samples of a sequence. -/
noncomputable def curveMean (n : ℕ) (f : ℕ → ℝ) : ℝ := (∑ i ∈ Finset.range n, f i) / n

/-- The centered point pt = (xt[i] - mean xt, yt[i] - mean yt) of pyefd.py
lines 225-228. -/
noncomputable def graspPt (n : ℕ) (xt yt : ℕ → ℝ) (i : ℕ) : ℝ × ℝ :=
  (xt i - curveMean n xt, yt i - curveMean n yt)

/-- pt_dist of pyefd.py line 235: the sum of the two distances from the curve
centroid. -/
noncomputable def ptDistSum (n : ℕ) (xt yt : ℕ → ℝ) (i j : ℕ) : ℝ :=
  norm2 (graspPt n xt yt i) + norm2 (graspPt n xt yt j)

/-- dist of pyefd.py line 236: the distance between the two candidate points. -/
noncomputable def pairDist (n : ℕ) (xt yt : ℕ → ℝ) (i j : ℕ) : ℝ :=
  norm2 ((graspPt n xt yt i).1 - (graspPt n xt yt j).1,
    (graspPt n xt yt i).2 - (graspPt n xt yt j).2)

/-- The ranking value pt_dist + dist of pyefd.py line 240. -/
noncomputable def graspValue (n : ℕ) (xt yt : ℕ → ℝ) (i j : ℕ) : ℝ :=
  ptDistSum n xt yt i j + pairDist n xt yt i j

/-- The Python errors the pair search can surface: the IndexError of
sorted_grasp[0] on an empty list, and the typed error named by the spec
(which nothing in the source ever raises). -/
inductive PyErr
  | indexError
  | noGraspFound
deriving DecidableEq

open scoped Classical in
/-- The accumulation loop of pyefd.py lines 217-241: for each combination,
append ([idx1, idx2], pt_dist + dist) when the angle exceeds 120 (code
degrees) and the distance is below 0.08. -/
noncomputable def graspCandList (n : ℕ) (xt yt : ℕ → ℝ) (normals : ℕ → ℝ × ℝ) :
    List (ℕ × ℕ) → List ((ℕ × ℕ) × ℝ)
  | [] => []
  | ij :: rest =>
    if 120 < angleCode (normals ij.1) (normals ij.2) then
      if pairDist n xt yt ij.1 ij.2 < 0.08 then
        (ij, graspValue n xt yt ij.1 ij.2) :: graspCandList n xt yt normals rest
      else graspCandList n xt yt normals rest
    else graspCandList n xt yt normals rest

open scoped Classical in
/-- sorted(grasps, key=lambda x: x[1]) of pyefd.py line 244: the Python
built-in stable ascending sort by the ranking value. -/
noncomputable def sortGraspList (l : List ((ℕ × ℕ) × ℝ)) : List ((ℕ × ℕ) × ℝ) :=
  List.insertionSort (fun a b => a.2 ≤ b.2) l

/-- The pair selection of pyefd.py lines 217-250: build the qualifying list,
sort it by value, and take sorted_grasp[0]; on an empty list this is the
IndexError of Python list indexing. -/
noncomputable def graspPairFilter (n : ℕ) (xt yt : ℕ → ℝ) (normals : ℕ → ℝ × ℝ)
    (combs : List (ℕ × ℕ)) : Except PyErr ((ℕ × ℕ) × ℝ) :=
  match sortGraspList (graspCandList n xt yt normals combs) with
  | [] => Except.error PyErr.indexError
  | g :: _ => Except.ok g

/-- Concrete curve samples for evaluating the pair filter: two candidate
points (0,0) and (0.01, 0). -/
noncomputable def cexXt : ℕ → ℝ := fun i => if i = 0 then 0 else 1 / 100

/-- Concrete curve samples, y coordinates. -/
def cexYt : ℕ → ℝ := fun _ => 0

/-- Concrete outward normals: (1,0) and a unit vector at exactly 120 degrees
from it. -/
noncomputable def cexNormals : ℕ → ℝ × ℝ :=
  fun i => if i = 0 then (1, 0) else (-(1 / 2), Real.sqrt 3 / 2)

/-- Python slice pts[a:b] on a list. -/
def pySlice (l : List (ℝ × ℝ)) (a b : ℕ) : List (ℝ × ℝ) := (l.drop a).take (b - a)

open scoped Classical in
/-- np.where(distances > 0.03)[0] of pyefd.py lines 194-195: indices of
consecutive-point distances exceeding 0.03. -/
noncomputable def splitIndices (pts : List (ℝ × ℝ)) : List ℕ :=
  (List.range (pts.length - 1)).filter
    (fun i => decide (0.03 < pdist (pts.getD i (0, 0)) (pts.getD (i + 1) (0, 0))))

open scoped Classical in
/-- The subarray construction of pyefd.py lines 197-204: if there is no split
index the original sequence is kept whole; otherwise boundary indices
[0] ++ split_indices ++ [len - 1] delimit inclusive slices. -/
noncomputable def subarrays (pts : List (ℝ × ℝ)) : List (List (ℝ × ℝ)) :=
  if splitIndices pts = [] then [pts]
  else
    let si := 0 :: (splitIndices pts ++ [pts.length - 1])
    (List.range (si.length - 1)).map (fun k => pySlice pts (si.getD k 0) (si.getD (k + 1) 0 + 1))

/-- Python max(subarrays, key=lambda x: x.shape[0]): the first subarray of
maximal length (later elements replace only on strictly greater length). -/
def pyMaxByLen (l : List (List (ℝ × ℝ))) : List (ℝ × ℝ) :=
  match l with
  | [] => []
  | a :: as => as.foldl (fun acc x => if acc.length < x.length then x else acc) a

/-- Midpoint of two 2D points, (p + q) / 2. -/
noncomputable def midPt (p q : ℝ × ℝ) : ℝ × ℝ := ((p.1 + q.1) / 2, (p.2 + q.2) / 2)

/-- The loop body of pyefd.py lines 209-212 after the first point: alternate
inserted midpoints and original points. -/
noncomputable def densifyAux (p : ℝ × ℝ) : List (ℝ × ℝ) → List (ℝ × ℝ)
  | [] => []
  | q :: rest => midPt p q :: q :: densifyAux q rest

/-- The midpoint densification of pyefd.py lines 208-213 (int_contour). -/
noncomputable def densify : List (ℝ × ℝ) → List (ℝ × ℝ)
  | [] => []
  | p :: rest => p :: densifyAux p rest

/-- The contour actually handed to get_extremum_points at pyefd.py line 215:
the densified longest subarray (outer_contour after lines 194-213). -/
noncomputable def fittedContour (pts : List (ℝ × ℝ)) : List (ℝ × ℝ) :=
  densify (pyMaxByLen (subarrays pts))

/-- dt of pyefd.py line 26: arclength of one contour segment. -/
noncomputable def contourDt (c : List (ℝ × ℝ)) (i : ℕ) : ℝ :=
  pdist (c.getD i (0, 0)) (c.getD (i + 1) (0, 0))

/-- t of pyefd.py line 27: cumulative arclength, t_0 = 0. -/
noncomputable def contourT (c : List (ℝ × ℝ)) (k : ℕ) : ℝ :=
  ∑ i ∈ Finset.range k, contourDt c i

/-- T of pyefd.py line 28: the total arclength. -/
noncomputable def contourPeriod (c : List (ℝ × ℝ)) : ℝ := contourT c (c.length - 1)

/-- phi of pyefd.py line 30. -/
noncomputable def contourPhi (c : List (ℝ × ℝ)) (i : ℕ) : ℝ :=
  2 * Real.pi * contourT c i / contourPeriod c

/-- x increment of one contour segment, dxy[:, 0]. -/
def contourDx (c : List (ℝ × ℝ)) (i : ℕ) : ℝ := (c.getD (i + 1) (0, 0)).1 - (c.getD i (0, 0)).1

/-- y increment of one contour segment, dxy[:, 1]. -/
def contourDy (c : List (ℝ × ℝ)) (i : ℕ) : ℝ := (c.getD (i + 1) (0, 0)).2 - (c.getD i (0, 0)).2

/-- Coefficient a_k of elliptic_fourier_descriptors (pyefd.py line 39). -/
noncomputable def efdA (c : List (ℝ × ℝ)) (k : ℕ) : ℝ :=
  contourPeriod c / (2 * (k : ℝ) ^ 2 * Real.pi ^ 2) *
    ∑ i ∈ Finset.range (c.length - 1),
      contourDx c i / contourDt c i *
        (Real.cos ((k : ℝ) * contourPhi c (i + 1)) - Real.cos ((k : ℝ) * contourPhi c i))

/-- Coefficient b_k of elliptic_fourier_descriptors (pyefd.py line 40). -/
noncomputable def efdB (c : List (ℝ × ℝ)) (k : ℕ) : ℝ :=
  contourPeriod c / (2 * (k : ℝ) ^ 2 * Real.pi ^ 2) *
    ∑ i ∈ Finset.range (c.length - 1),
      contourDx c i / contourDt c i *
        (Real.sin ((k : ℝ) * contourPhi c (i + 1)) - Real.sin ((k : ℝ) * contourPhi c i))

/-- Coefficient c_k of elliptic_fourier_descriptors (pyefd.py line 41). -/
noncomputable def efdC (c : List (ℝ × ℝ)) (k : ℕ) : ℝ :=
  contourPeriod c / (2 * (k : ℝ) ^ 2 * Real.pi ^ 2) *
    ∑ i ∈ Finset.range (c.length - 1),
      contourDy c i / contourDt c i *
        (Real.cos ((k : ℝ) * contourPhi c (i + 1)) - Real.cos ((k : ℝ) * contourPhi c i))

/-- Coefficient d_k of elliptic_fourier_descriptors (pyefd.py line 42). -/
noncomputable def efdD (c : List (ℝ × ℝ)) (k : ℕ) : ℝ :=
  contourPeriod c / (2 * (k : ℝ) ^ 2 * Real.pi ^ 2) *
    ∑ i ∈ Finset.range (c.length - 1),
      contourDy c i / contourDt c i *
        (Real.sin ((k : ℝ) * contourPhi c (i + 1)) - Real.sin ((k : ℝ) * contourPhi c i))

/-- xi of calculate_dc_coefficients (pyefd.py line 67). -/
noncomputable def efdXi (c : List (ℝ × ℝ)) (i : ℕ) : ℝ :=
  (∑ j ∈ Finset.range (i + 1), contourDx c j) - contourDx c i / contourDt c i * contourT c (i + 1)

/-- delta of calculate_dc_coefficients (pyefd.py line 69). -/
noncomputable def efdDelta (c : List (ℝ × ℝ)) (i : ℕ) : ℝ :=
  (∑ j ∈ Finset.range (i + 1), contourDy c j) - contourDy c i / contourDt c i * contourT c (i + 1)

/-- A_0 of calculate_dc_coefficients (pyefd.py lines 68 and 74). -/
noncomputable def efdA0 (c : List (ℝ × ℝ)) : ℝ :=
  (c.getD 0 (0, 0)).1 + 1 / contourPeriod c *
    ∑ i ∈ Finset.range (c.length - 1),
      (contourDx c i / (2 * contourDt c i) * ((contourT c (i + 1)) ^ 2 - (contourT c i) ^ 2) +
        efdXi c i * contourDt c i)

/-- C_0 of calculate_dc_coefficients (pyefd.py lines 70 and 74). -/
noncomputable def efdC0 (c : List (ℝ × ℝ)) : ℝ :=
  (c.getD 0 (0, 0)).2 + 1 / contourPeriod c *
    ∑ i ∈ Finset.range (c.length - 1),
      (contourDy c i / (2 * contourDt c i) * ((contourT c (i + 1)) ^ 2 - (contourT c i) ^ 2) +
        efdDelta c i * contourDt c i)

/-- np.linspace(0, 1.0, 300) sample j (get_curve, pyefd.py line 84). -/
noncomputable def curveParam (j : ℕ) : ℝ := (j : ℝ) / 299

/-- xt of get_curve with order 15 and locus (A0, C0) (pyefd.py lines 85-93,
called from get_extremum_points with order=15, n=300). -/
noncomputable def curveXt (c : List (ℝ × ℝ)) (j : ℕ) : ℝ :=
  efdA0 c + ∑ k ∈ Finset.range 15,
    (efdA c (k + 1) * Real.cos (2 * ((k : ℝ) + 1) * Real.pi * curveParam j) +
      efdB c (k + 1) * Real.sin (2 * ((k : ℝ) + 1) * Real.pi * curveParam j))

/-- yt of get_curve with order 15 and locus (A0, C0). -/
noncomputable def curveYt (c : List (ℝ × ℝ)) (j : ℕ) : ℝ :=
  efdC0 c + ∑ k ∈ Finset.range 15,
    (efdC c (k + 1) * Real.cos (2 * ((k : ℝ) + 1) * Real.pi * curveParam j) +
      efdD c (k + 1) * Real.sin (2 * ((k : ℝ) + 1) * Real.pi * curveParam j))

/-- np.gradient of a length-n sequence: one-sided differences at the ends,
central differences inside. -/
noncomputable def npGradient (f : ℕ → ℝ) (n : ℕ) (i : ℕ) : ℝ :=
  if i = 0 then f 1 - f 0
  else if i = n - 1 then f (n - 1) - f (n - 2)
  else (f (i + 1) - f (i - 1)) / 2

/-- First derivative dxdt of compute_tangents_normals (pyefd.py line 100). -/
noncomputable def tangentX (c : List (ℝ × ℝ)) : ℕ → ℝ := npGradient (curveXt c) 300

/-- First derivative dydt of compute_tangents_normals (pyefd.py line 101). -/
noncomputable def tangentY (c : List (ℝ × ℝ)) : ℕ → ℝ := npGradient (curveYt c) 300

/-- Second derivative d2xdt2 (pyefd.py line 102). -/
noncomputable def normalX (c : List (ℝ × ℝ)) : ℕ → ℝ := npGradient (tangentX c) 300

/-- Second derivative d2ydt2 (pyefd.py line 103). -/
noncomputable def normalY (c : List (ℝ × ℝ)) : ℕ → ℝ := npGradient (tangentY c) 300

/-- Curvature score, the norm of the second-derivative vector (pyefd.py
lines 110-114). -/
noncomputable def curvatureAt (c : List (ℝ × ℝ)) (i : ℕ) : ℝ := norm2 (normalX c i, normalY c i)

/-- np.diff of the curvature array (find_local_max_min_indices, line 146). -/
noncomputable def curvDiff (c : List (ℝ × ℝ)) (i : ℕ) : ℝ :=
  curvatureAt c (i + 1) - curvatureAt c i

open scoped Classical in
/-- Local curvature maxima indices (pyefd.py line 147) on the 300-sample curve. -/
noncomputable def curvMaxima (c : List (ℝ × ℝ)) : List ℕ :=
  ((List.range 298).filter (fun i => decide (0 < curvDiff c i ∧ curvDiff c (i + 1) < 0))).map
    (fun i => i + 1)

open scoped Classical in
/-- Local curvature minima indices (pyefd.py line 148). -/
noncomputable def curvMinima (c : List (ℝ × ℝ)) : List ℕ :=
  ((List.range 298).filter (fun i => decide (curvDiff c i < 0 ∧ 0 < curvDiff c (i + 1)))).map
    (fun i => i + 1)

/-- maxima_minima of pyefd.py line 172. -/
noncomputable def maximaMinima (c : List (ℝ × ℝ)) : List ℕ := curvMaxima c ++ curvMinima c

/-- itertools.combinations(_, 2) in list order (pyefd.py line 182). -/
def pairsOf : List ℕ → List (ℕ × ℕ)
  | [] => []
  | x :: xs => xs.map (fun y => (x, y)) ++ pairsOf xs

/-- Outward normal at a curve sample (pyefd.py lines 184-186): the tangent
rotated by [[0, -1], [1, 0]] and unit-normalized. -/
noncomputable def outwardNormal (c : List (ℝ × ℝ)) (i : ℕ) : ℝ × ℝ :=
  (-(tangentY c i) / norm2 (-(tangentY c i), tangentX c i),
    tangentX c i / norm2 (-(tangentY c i), tangentX c i))

/-- The pair search applied to the fitted curve of a contour: the composition
of get_extremum_points (pyefd.py lines 159-188) with the selection loop. -/
noncomputable def getGraspOnContour (c : List (ℝ × ℝ)) : Except PyErr ((ℝ × ℝ) × (ℝ × ℝ)) :=
  (graspPairFilter 300 (curveXt c) (curveYt c) (outwardNormal c) (pairsOf (maximaMinima c))).map
    (fun g => ((curveXt c g.1.1, curveYt c g.1.1), (curveXt c g.1.2, curveYt c g.1.2)))

/-- get_grasp of pyefd.py lines 190-270: preprocessing (split, keep longest,
densify) followed by the curve fit and pair selection. -/
noncomputable def getGrasp (pts : List (ℝ × ℝ)) : Except PyErr ((ℝ × ℝ) × (ℝ × ℝ)) :=
  getGraspOnContour (fittedContour pts)

instance : IsTotal ((ℕ × ℕ) × ℝ) (fun a b => a.2 ≤ b.2) := ⟨fun a b => le_total a.2 b.2⟩

instance : IsTrans ((ℕ × ℕ) × ℝ) (fun a b => a.2 ≤ b.2) := ⟨fun _ _ _ h1 h2 => le_trans h1 h2⟩

lemma foldlMin_mem : ∀ (l : List ℚ) (a : ℚ), l.foldl min a ∈ a :: l := by
  intro l
  induction l with
  | nil => intro a; simp
  | cons b t ih =>
    intro a
    have h := ih (min a b)
    simp only [List.foldl_cons]
    rcases List.mem_cons.mp h with h1 | h1
    · rcases min_choice a b with hm | hm
      · rw [h1, hm]; exact List.mem_cons_self _ _
      · rw [h1, hm]; exact List.mem_cons_of_mem _ (List.mem_cons_self _ _)
    · exact List.mem_cons_of_mem _ (List.mem_cons_of_mem _ h1)

lemma foldlMin_le : ∀ (l : List ℚ) (a x : ℚ), x ∈ a :: l → l.foldl min a ≤ x := by
  intro l
  induction l with
  | nil => intro a x hx; simp at hx; simp [hx]
  | cons b t ih =>
    intro a x hx
    simp only [List.foldl_cons]
    rcases List.mem_cons.mp hx with rfl | hx2
    · exact le_trans (ih (min x b) (min x b) (List.mem_cons_self _ _)) (min_le_left x b)
    · rcases List.mem_cons.mp hx2 with rfl | hx3
      · exact le_trans (ih (min a x) (min a x) (List.mem_cons_self _ _)) (min_le_right a x)
      · exact ih (min a b) x (List.mem_cons_of_mem _ hx3)

lemma foldlMax_mem : ∀ (l : List ℚ) (a : ℚ), l.foldl max a ∈ a :: l := by
  intro l
  induction l with
  | nil => intro a; simp
  | cons b t ih =>
    intro a
    have h := ih (max a b)
    simp only [List.foldl_cons]
    rcases List.mem_cons.mp h with h1 | h1
    · rcases max_choice a b with hm | hm
      · rw [h1, hm]; exact List.mem_cons_self _ _
      · rw [h1, hm]; exact List.mem_cons_of_mem _ (List.mem_cons_self _ _)
    · exact List.mem_cons_of_mem _ (List.mem_cons_of_mem _ h1)

lemma le_foldlMax : ∀ (l : List ℚ) (a x : ℚ), x ∈ a :: l → x ≤ l.foldl max a := by
  intro l
  induction l with
  | nil => intro a x hx; simp at hx; simp [hx]
  | cons b t ih =>
    intro a x hx
    simp only [List.foldl_cons]
    rcases List.mem_cons.mp hx with rfl | hx2
    · exact le_trans (le_max_left x b) (ih (max x b) (max x b) (List.mem_cons_self _ _))
    · rcases List.mem_cons.mp hx2 with rfl | hx3
      · exact le_trans (le_max_right a x) (ih (max a x) (max a x) (List.mem_cons_self _ _))
      · exact ih (max a b) x (List.mem_cons_of_mem _ hx3)

lemma npMin_mem {l : List ℚ} (h : l ≠ []) : npMin l ∈ l := by
  cases l with
  | nil => exact absurd rfl h
  | cons a t => exact foldlMin_mem t a

lemma npMin_le {l : List ℚ} {x : ℚ} (hx : x ∈ l) : npMin l ≤ x := by
  cases l with
  | nil => simp at hx
  | cons a t => exact foldlMin_le t a x hx

lemma npMax_mem {l : List ℚ} (h : l ≠ []) : npMax l ∈ l := by
  cases l with
  | nil => exact absurd rfl h
  | cons a t => exact foldlMax_mem t a

lemma le_npMax {l : List ℚ} {x : ℚ} (hx : x ∈ l) : x ≤ npMax l := by
  cases l with
  | nil => simp at hx
  | cons a t => exact le_foldlMax t a x hx

lemma normPix_eq (img : List ℚ) (a : ℚ) :
    normPix img a = pyInt ((a - npMin img) * 255 / (npMax img - npMin img)) % 256 := rfl

lemma normPix_bounds {img : List ℚ} (h : npMin img < npMax img) {a : ℚ} (ha : a ∈ img) :
    0 ≤ normPix img a ∧ normPix img a ≤ 255 := by
  have hD : 0 < npMax img - npMin img := sub_pos.mpr h
  have h0 : 0 ≤ (a - npMin img) * 255 / (npMax img - npMin img) :=
    div_nonneg (mul_nonneg (sub_nonneg.mpr (npMin_le ha)) (by norm_num)) (le_of_lt hD)
  have h255 : (a - npMin img) * 255 / (npMax img - npMin img) ≤ 255 := by
    rw [div_le_iff hD]
    have hM : a ≤ npMax img := le_npMax ha
    nlinarith
  have hfl : pyInt ((a - npMin img) * 255 / (npMax img - npMin img)) =
      ⌊(a - npMin img) * 255 / (npMax img - npMin img)⌋ := if_pos h0
  have hge : (0 : ℤ) ≤ ⌊(a - npMin img) * 255 / (npMax img - npMin img)⌋ :=
    Int.floor_nonneg.mpr h0
  have hle : ⌊(a - npMin img) * 255 / (npMax img - npMin img)⌋ ≤ 255 := by
    have := Int.floor_le_floor h255
    simpa using this
  rw [normPix_eq, hfl, Int.emod_eq_of_lt hge (by omega)]
  exact ⟨hge, hle⟩

/-- C8: for every depth frame with at least two distinct values, the output
of normalize_depth attains minimum exactly 0 and maximum exactly 255, and the
pixel mapping preserves the relative order of input values. -/
theorem normalizeDepth_range_monotone (img : List ℚ) (h : npMin img < npMax img) :
    (∀ v ∈ normalizeDepth img, 0 ≤ v ∧ v ≤ 255) ∧
      (0 : ℤ) ∈ normalizeDepth img ∧ (255 : ℤ) ∈ normalizeDepth img ∧
      ∀ a ∈ img, ∀ b ∈ img, a ≤ b → normPix img a ≤ normPix img b := by
  have hne : img ≠ [] := by
    intro he
    rw [he] at h
    simp [npMin, npMax] at h
  have hD : 0 < npMax img - npMin img := sub_pos.mpr h
  refine ⟨?_, ?_, ?_, ?_⟩
  · intro v hv
    obtain ⟨a, ha, rfl⟩ := List.mem_map.mp hv
    exact normPix_bounds h ha
  · have hm : normPix img (npMin img) = 0 := by
      rw [normPix_eq, show (npMin img - npMin img) * 255 / (npMax img - npMin img) = 0 by
        rw [sub_self, zero_mul, zero_div]]
      norm_num [pyInt]
    rw [← hm]
    exact List.mem_map_of_mem (normPix img) (npMin_mem hne)
  · have hM : normPix img (npMax img) = 255 := by
      have hv : (npMax img - npMin img) * 255 / (npMax img - npMin img) = 255 := by
        field_simp
      rw [normPix_eq, hv]
      norm_num [pyInt]
    rw [← hM]
    exact List.mem_map_of_mem (normPix img) (npMax_mem hne)
  · intro a ha b hb hab
    have hva := normPix_bounds h ha
    have h0a : 0 ≤ (a - npMin img) * 255 / (npMax img - npMin img) :=
      div_nonneg (mul_nonneg (sub_nonneg.mpr (npMin_le ha)) (by norm_num)) (le_of_lt hD)
    have h0b : 0 ≤ (b - npMin img) * 255 / (npMax img - npMin img) :=
      div_nonneg (mul_nonneg (sub_nonneg.mpr (npMin_le hb)) (by norm_num)) (le_of_lt hD)
    have h255a : (a - npMin img) * 255 / (npMax img - npMin img) ≤ 255 := by
      rw [div_le_iff hD]
      have := le_npMax ha
      nlinarith
    have h255b : (b - npMin img) * 255 / (npMax img - npMin img) ≤ 255 := by
      rw [div_le_iff hD]
      have := le_npMax hb
      nlinarith
    have hle : (a - npMin img) * 255 / (npMax img - npMin img) ≤
        (b - npMin img) * 255 / (npMax img - npMin img) := by
      rw [div_le_div_right hD]
      nlinarith
    have hfla : pyInt ((a - npMin img) * 255 / (npMax img - npMin img)) =
        ⌊(a - npMin img) * 255 / (npMax img - npMin img)⌋ := if_pos h0a
    have hflb : pyInt ((b - npMin img) * 255 / (npMax img - npMin img)) =
        ⌊(b - npMin img) * 255 / (npMax img - npMin img)⌋ := if_pos h0b
    have hgea : (0 : ℤ) ≤ ⌊(a - npMin img) * 255 / (npMax img - npMin img)⌋ :=
      Int.floor_nonneg.mpr h0a
    have hgeb : (0 : ℤ) ≤ ⌊(b - npMin img) * 255 / (npMax img - npMin img)⌋ :=
      Int.floor_nonneg.mpr h0b
    have hlea : ⌊(a - npMin img) * 255 / (npMax img - npMin img)⌋ ≤ 255 := by
      have := Int.floor_le_floor h255a
      simpa using this
    have hleb : ⌊(b - npMin img) * 255 / (npMax img - npMin img)⌋ ≤ 255 := by
      have := Int.floor_le_floor h255b
      simpa using this
    rw [normPix_eq, normPix_eq, hfla, hflb, Int.emod_eq_of_lt hgea (by omega),
      Int.emod_eq_of_lt hgeb (by omega)]
    exact Int.floor_le_floor hle

/-- Witness for C8 at the two-pixel frame [0, 1]. -/
theorem normalizeDepth_range_monotone_witness :
    npMin [(0 : ℚ), 1] < npMax [(0 : ℚ), 1] ∧
      ((∀ v ∈ normalizeDepth [(0 : ℚ), 1], 0 ≤ v ∧ v ≤ 255) ∧
        (0 : ℤ) ∈ normalizeDepth [(0 : ℚ), 1] ∧ (255 : ℤ) ∈ normalizeDepth [(0 : ℚ), 1] ∧
        ∀ a ∈ [(0 : ℚ), 1], ∀ b ∈ [(0 : ℚ), 1], a ≤ b →
          normPix [(0 : ℚ), 1] a ≤ normPix [(0 : ℚ), 1] b) :=
  ⟨by norm_num [npMin, npMax], normalizeDepth_range_monotone _ (by norm_num [npMin, npMax])⟩

/-- C2 (code_bug evidence): in every scoring mode, one invocation of
get_grasp starting from the configured angle list leaves the list changed:
ALL_ROTATIONS appends the principal-axis angle, the other modes overwrite
the list, so the value after the call never equals the value before it. -/
theorem updateAngles_changes_default :
    ∀ (mode : GraspMaskMode) (a : ℝ),
      (updateAngles mode defaultAngles a = defaultAngles) ↔ False := by
  intro mode a
  have hlen : defaultAngles.length = 36 := by
    simp only [defaultAngles, List.length_map, List.length_range]
  simp only [iff_false]
  cases mode with
  | allRotations =>
    intro hc
    have := congrArg List.length hc
    simp [updateAngles, hlen] at this
  | majorComponentImage =>
    intro hc
    have := congrArg List.length hc
    simp [updateAngles, hlen] at this
  | majorComponentMask =>
    intro hc
    have := congrArg List.length hc
    simp [updateAngles, hlen] at this

/-- C5 counterexample: for the first configured size 1024/4 = 256 the
generated mask has 255 rows (five bands of 51), not floor(256/5) = 51 as the
claim states. -/
theorem buildMask_shape_counterexample :
    (buildMask (1024 / 4) 1).rows = 255 ∧ pyNat ((1024 / 4) / 5) = 51 ∧
      (((buildMask (1024 / 4) 1).rows = pyNat ((1024 / 4) / 5)) ↔ False) := by
  have h2 : pyNat ((1024 / 4 : ℚ) / 5) = 51 := by
    have hfl : ⌊(1024 / 4 / 5 : ℚ)⌋ = 51 := by norm_num
    unfold pyNat pyInt
    rw [if_pos (by norm_num : (0 : ℚ) ≤ 1024 / 4 / 5), hfl]
    rfl
  have h1 : (buildMask (1024 / 4) 1).rows = 255 := by
    show pyNat ((1024 / 4 : ℚ) / 5) + (pyNat ((1024 / 4 : ℚ) / 5) +
      (pyNat ((1024 / 4 : ℚ) / 5) + (pyNat ((1024 / 4 : ℚ) / 5) +
        pyNat ((1024 / 4 : ℚ) / 5)))) = 255
    rw [h2]
  exact ⟨h1, h2, by rw [h1, h2]; simp⟩

/-- C5 amended: the mask generated for size s has floor(3*s/5) columns and
5 * floor(s/5) rows (five bands of floor(s/5) rows each). -/
theorem buildMask_shape (s w : ℚ) :
    (buildMask s w).rows = 5 * pyNat (s / 5) ∧ (buildMask s w).cols = pyNat (3 * s / 5) := by
  constructor
  · show pyNat (s / 5) + (pyNat (s / 5) + (pyNat (s / 5) + (pyNat (s / 5) + pyNat (s / 5)))) =
      5 * pyNat (s / 5)
    ring
  · rfl

/-- C6 counterexample: with the size list longer than the weight list,
generate_masks does not truncate to the shorter list but fails (IndexError,
modelled as none). -/
theorem generateMasks_mismatch_counterexample :
    generateMasks [10, 20] [5] = none ∧
      ((generateMasks [10, 20] [5] = some [buildMask 10 5]) ↔ False) := by
  have h : generateMasks [10, 20] [5] = none := rfl
  exact ⟨h, by rw [h]; simp⟩

/-- C6 amended: when the weight list is at least as long as the size list,
generate_masks yields one mask per size, pairing sizes with the weight of the
same index and ignoring surplus weights; on the repository configuration
(4 sizes, 5 weights) this yields exactly 4 masks scaled by weights 1,2,3,4. -/
theorem generateMasks_truncates_to_sizes :
    (∀ (sizes weights : List ℚ), sizes.length ≤ weights.length →
        generateMasks sizes weights = some (List.zipWith buildMask sizes weights)) ∧
      generateMasks repoMaskSizes repoWeights =
        some (List.zipWith buildMask repoMaskSizes repoWeights) ∧
      (List.zipWith buildMask repoMaskSizes repoWeights).length = 4 := by
  have main : ∀ (sizes weights : List ℚ), sizes.length ≤ weights.length →
      generateMasks sizes weights = some (List.zipWith buildMask sizes weights) := by
    intro sizes
    induction sizes with
    | nil => intro weights _; rfl
    | cons s ss ih =>
      intro weights hw
      cases weights with
      | nil => simp at hw
      | cons w ws =>
        have hih := ih ws (by simpa using hw)
        simp [generateMasks, hih, List.zipWith]
  have hlen : repoMaskSizes.length = 4 := by
    simp only [repoMaskSizes, List.length_map, List.length_range']
  have hwlen : repoWeights.length = 5 := by rfl
  refine ⟨main, main _ _ (by rw [hlen, hwlen]; norm_num), ?_⟩
  rw [List.length_zipWith, hlen, hwlen]
  omega

/-- Witness for C6 amended at a one-size, two-weight configuration. -/
theorem generateMasks_truncates_to_sizes_witness :
    ([(5 : ℚ)].length ≤ [(1 : ℚ), 2].length) ∧
      generateMasks [(5 : ℚ)] [(1 : ℚ), 2] =
        some (List.zipWith buildMask [(5 : ℚ)] [(1 : ℚ), 2]) :=
  ⟨by simp, generateMasks_truncates_to_sizes.1 [5] [1, 2] (by simp)⟩

lemma filter_orderedInsert_desc (s : ℚ) (a : GraspCandidate) (l : List GraspCandidate) :
    List.filter (fun c => decide (c.1 = s))
        (List.orderedInsert (fun x y => y.1 ≤ x.1) a l) =
      if a.1 = s then a :: List.filter (fun c => decide (c.1 = s)) l
      else List.filter (fun c => decide (c.1 = s)) l := by
  induction l with
  | nil =>
    by_cases h : a.1 = s <;> simp [List.orderedInsert, List.filter, h]
  | cons b t ih =>
    by_cases hr : b.1 ≤ a.1
    · have he : List.orderedInsert (fun x y => y.1 ≤ x.1) a (b :: t) = a :: b :: t := by
        simp only [List.orderedInsert]
        rw [if_pos hr]
      rw [he]
      by_cases h : a.1 = s <;> simp [List.filter_cons, h]
    · have he : List.orderedInsert (fun x y => y.1 ≤ x.1) a (b :: t) =
          b :: List.orderedInsert (fun x y => y.1 ≤ x.1) a t := by
        simp only [List.orderedInsert]
        rw [if_neg hr]
      rw [he]
      have hba : a.1 < b.1 := lt_of_not_le hr
      by_cases h : a.1 = s
      · have hb : ¬(b.1 = s) := by rw [← h]; exact ne_of_gt hba
        simp [List.filter_cons, h, hb, ih]
      · by_cases hb : b.1 = s <;> simp [List.filter_cons, h, hb, ih]

/-- C9: the ranked candidate list is sorted by non-increasing score, is a
permutation of the generated candidates, and candidates of any given score
keep their generation order (stability). -/
theorem sortCandidates_sorted_stable (l : List GraspCandidate) :
    List.Sorted (fun a b : GraspCandidate => b.1 ≤ a.1) (sortCandidates l) ∧
      List.Perm (sortCandidates l) l ∧
      ∀ s : ℚ, (sortCandidates l).filter (fun c => decide (c.1 = s)) =
        l.filter (fun c => decide (c.1 = s)) := by
  refine ⟨List.sorted_insertionSort _ l, List.perm_insertionSort _ l, ?_⟩
  intro s
  induction l with
  | nil => rfl
  | cons x xs ih =>
    have hx := filter_orderedInsert_desc s x (List.insertionSort (fun a b => b.1 ≤ a.1) xs)
    simp only [sortCandidates, List.insertionSort] at *
    rw [hx]
    by_cases h : x.1 = s
    · simp [List.filter_cons, h, ih]
    · simp [List.filter_cons, h, ih]

/-- Witness for C2 evidence at a concrete principal-axis angle. -/
theorem updateAngles_changes_default_witness :
    (updateAngles GraspMaskMode.allRotations defaultAngles 30 = defaultAngles) ↔ False :=
  updateAngles_changes_default GraspMaskMode.allRotations 30

/-- C7: mapping any point forward by the rotation about c by angle θ and then
backward by the rotation about c by -θ returns the original point within the
1e-6 tolerance (the composition is exactly the identity in real arithmetic). -/
theorem cvRotate_roundtrip (θ : ℝ) (c p : ℝ × ℝ) :
    |(cvRotate (-θ) c (cvRotate θ c p)).1 - p.1| ≤ 1 / 1000000 ∧
    |(cvRotate (-θ) c (cvRotate θ c p)).2 - p.2| ≤ 1 / 1000000 := by
  have ha : -θ * Real.pi / 180 = -(θ * Real.pi / 180) := by ring
  have hpyth := Real.sin_sq_add_cos_sq (θ * Real.pi / 180)
  have h1 : (cvRotate (-θ) c (cvRotate θ c p)).1 = p.1 := by
    simp only [cvRotate, ha, Real.cos_neg, Real.sin_neg]
    linear_combination (p.1 - c.1) * hpyth
  have h2 : (cvRotate (-θ) c (cvRotate θ c p)).2 = p.2 := by
    simp only [cvRotate, ha, Real.cos_neg, Real.sin_neg]
    linear_combination (p.2 - c.2) * hpyth
  rw [h1, h2]
  norm_num

lemma graspCandList_mem {n : ℕ} {xt yt : ℕ → ℝ} {normals : ℕ → ℝ × ℝ} :
    ∀ {combs : List (ℕ × ℕ)} {x : (ℕ × ℕ) × ℝ}, x ∈ graspCandList n xt yt normals combs →
      x.1 ∈ combs ∧ 120 < angleCode (normals x.1.1) (normals x.1.2) ∧
        pairDist n xt yt x.1.1 x.1.2 < 0.08 ∧ x.2 = graspValue n xt yt x.1.1 x.1.2 := by
  intro combs
  induction combs with
  | nil => intro x hx; simp [graspCandList] at hx
  | cons ij rest ih =>
    intro x hx
    simp only [graspCandList] at hx
    by_cases h1 : 120 < angleCode (normals ij.1) (normals ij.2)
    · by_cases h2 : pairDist n xt yt ij.1 ij.2 < 0.08
      · rw [if_pos h1, if_pos h2] at hx
        rcases List.mem_cons.mp hx with rfl | hmem
        · exact ⟨List.mem_cons_self _ _, h1, h2, rfl⟩
        · obtain ⟨ha, hb, hc, hd⟩ := ih hmem
          exact ⟨List.mem_cons_of_mem _ ha, hb, hc, hd⟩
      · rw [if_pos h1, if_neg h2] at hx
        obtain ⟨ha, hb, hc, hd⟩ := ih hx
        exact ⟨List.mem_cons_of_mem _ ha, hb, hc, hd⟩
    · rw [if_neg h1] at hx
      obtain ⟨ha, hb, hc, hd⟩ := ih hx
      exact ⟨List.mem_cons_of_mem _ ha, hb, hc, hd⟩

lemma graspCandList_mem_of {n : ℕ} {xt yt : ℕ → ℝ} {normals : ℕ → ℝ × ℝ} :
    ∀ {combs : List (ℕ × ℕ)} {ij : ℕ × ℕ}, ij ∈ combs →
      120 < angleCode (normals ij.1) (normals ij.2) → pairDist n xt yt ij.1 ij.2 < 0.08 →
      (ij, graspValue n xt yt ij.1 ij.2) ∈ graspCandList n xt yt normals combs := by
  intro combs
  induction combs with
  | nil => intro ij h; simp at h
  | cons hd rest ih =>
    intro ij hmem h1 h2
    rcases List.mem_cons.mp hmem with rfl | hm
    · simp only [graspCandList]
      rw [if_pos h1, if_pos h2]
      exact List.mem_cons_self _ _
    · have hrec := ih hm h1 h2
      simp only [graspCandList]
      by_cases hh1 : 120 < angleCode (normals hd.1) (normals hd.2)
      · by_cases hh2 : pairDist n xt yt hd.1 hd.2 < 0.08
        · rw [if_pos hh1, if_pos hh2]; exact List.mem_cons_of_mem _ hrec
        · rw [if_pos hh1, if_neg hh2]; exact hrec
      · rw [if_neg hh1]; exact hrec

lemma sortGraspList_sorted (l : List ((ℕ × ℕ) × ℝ)) :
    List.Sorted (fun a b : (ℕ × ℕ) × ℝ => a.2 ≤ b.2) (sortGraspList l) :=
  List.sorted_insertionSort _ l

lemma sortGraspList_perm (l : List ((ℕ × ℕ) × ℝ)) : List.Perm (sortGraspList l) l :=
  List.perm_insertionSort _ l

/-- C1 amended: any pair returned by the selection loop comes from the
candidate combinations, passes the code thresholds (angle computed with the
source constant 180/3.14 strictly above 120, point distance strictly below
0.08), carries the value pt_dist + dist, and that value is minimal among all
combinations passing the code thresholds. -/
theorem graspPairFilter_min_qualifying (n : ℕ) (xt yt : ℕ → ℝ) (normals : ℕ → ℝ × ℝ)
    (combs : List (ℕ × ℕ)) (g : (ℕ × ℕ) × ℝ)
    (h : graspPairFilter n xt yt normals combs = Except.ok g) :
    g.1 ∈ combs ∧ 120 < angleCode (normals g.1.1) (normals g.1.2) ∧
      pairDist n xt yt g.1.1 g.1.2 < 0.08 ∧ g.2 = graspValue n xt yt g.1.1 g.1.2 ∧
      ∀ ij ∈ combs, 120 < angleCode (normals ij.1) (normals ij.2) →
        pairDist n xt yt ij.1 ij.2 < 0.08 → g.2 ≤ graspValue n xt yt ij.1 ij.2 := by
  rcases hs : sortGraspList (graspCandList n xt yt normals combs) with _ | ⟨g0, rest⟩
  · rw [graspPairFilter, hs] at h
    simp at h
  · rw [graspPairFilter, hs] at h
    simp only [Except.ok.injEq] at h
    subst h
    have hmem : g0 ∈ graspCandList n xt yt normals combs := by
      have hin : g0 ∈ sortGraspList (graspCandList n xt yt normals combs) := by
        rw [hs]; exact List.mem_cons_self _ _
      exact (sortGraspList_perm _).mem_iff.mp hin
    obtain ⟨hin, hang, hdist, hval⟩ := graspCandList_mem hmem
    refine ⟨hin, hang, hdist, hval, ?_⟩
    intro ij hij h1 h2
    have hq : (ij, graspValue n xt yt ij.1 ij.2) ∈ graspCandList n xt yt normals combs :=
      graspCandList_mem_of hij h1 h2
    have hq2 : (ij, graspValue n xt yt ij.1 ij.2) ∈ g0 :: rest := by
      rw [← hs]
      exact (sortGraspList_perm _).mem_iff.mpr hq
    rcases List.mem_cons.mp hq2 with he | ht
    · rw [← he]
    · have hsorted := sortGraspList_sorted (graspCandList n xt yt normals combs)
      rw [hs] at hsorted
      have := (List.pairwise_cons.mp hsorted).1 _ ht
      simpa using this

/-- C3 amended: whenever no combination passes both code thresholds
(including the empty candidate set), the selection fails with the untyped
IndexError of sorted_grasp[0], not with a typed no-grasp error. -/
theorem graspPairFilter_untyped_indexError (n : ℕ) (xt yt : ℕ → ℝ) (normals : ℕ → ℝ × ℝ)
    (combs : List (ℕ × ℕ))
    (h : ∀ ij ∈ combs, ¬(120 < angleCode (normals ij.1) (normals ij.2) ∧
      pairDist n xt yt ij.1 ij.2 < 0.08)) :
    graspPairFilter n xt yt normals combs = Except.error PyErr.indexError := by
  have hnil : graspCandList n xt yt normals combs = [] := by
    induction combs with
    | nil => rfl
    | cons ij rest ih =>
      have hr := ih (fun x hx => h x (List.mem_cons_of_mem _ hx))
      simp only [graspCandList]
      by_cases h1 : 120 < angleCode (normals ij.1) (normals ij.2)
      · by_cases h2 : pairDist n xt yt ij.1 ij.2 < 0.08
        · exact absurd ⟨h1, h2⟩ (h ij (List.mem_cons_self _ _))
        · rw [if_pos h1, if_neg h2]; exact hr
      · rw [if_neg h1]; exact hr
  rw [graspPairFilter, hnil]
  rfl

lemma norm2_x_zero (x : ℝ) : norm2 (x, 0) = |x| := by
  simp only [norm2]
  rw [show ((x, (0 : ℝ)).1 ^ 2 + (x, (0 : ℝ)).2 ^ 2) = x ^ 2 by norm_num]
  exact Real.sqrt_sq_eq_abs x

lemma cexNormals_zero : cexNormals 0 = (1, 0) := by simp [cexNormals]

lemma cexNormals_one : cexNormals 1 = (-(1 / 2), Real.sqrt 3 / 2) := by simp [cexNormals]

lemma norm2_cexNormals_zero : norm2 (cexNormals 0) = 1 := by
  rw [cexNormals_zero, show ((1 : ℝ), (0 : ℝ)) = ((1 : ℝ), 0) from rfl, norm2_x_zero]
  norm_num

lemma norm2_cexNormals_one : norm2 (cexNormals 1) = 1 := by
  rw [cexNormals_one]
  simp only [norm2]
  have h3 : ((-(1 / 2) : ℝ), Real.sqrt 3 / 2).1 ^ 2 + ((-(1 / 2) : ℝ), Real.sqrt 3 / 2).2 ^ 2
      = 1 := by
    have hs : (Real.sqrt 3 / 2) ^ 2 = 3 / 4 := by
      rw [div_pow, Real.sq_sqrt (by norm_num : (0 : ℝ) ≤ 3)]
      norm_num
    simp only []
    rw [hs]
    norm_num
  rw [h3]
  exact Real.sqrt_one

lemma dot2_cex : dot2 (cexNormals 0) (cexNormals 1) = -(1 / 2) := by
  rw [cexNormals_zero, cexNormals_one]
  simp [dot2]

lemma arccosArg_cex :
    dot2 (cexNormals 0) (cexNormals 1) / (norm2 (cexNormals 0) * norm2 (cexNormals 1)) =
      -(1 / 2) := by
  rw [dot2_cex, norm2_cexNormals_zero, norm2_cexNormals_one]
  norm_num

lemma arccos_neg_half : Real.arccos (-(1 / 2)) = 2 * Real.pi / 3 := by
  rw [Real.arccos_neg]
  have h : Real.arccos (1 / 2) = Real.pi / 3 := by
    rw [← Real.cos_pi_div_three]
    exact Real.arccos_cos (by positivity) (by linarith [Real.pi_pos])
  rw [h]
  ring

lemma angleCode_cex_gt : 120 < angleCode (cexNormals 0) (cexNormals 1) := by
  rw [angleCode, arccosArg_cex, arccos_neg_half]
  rw [lt_div_iff (by norm_num : (0 : ℝ) < 3.14)]
  have hpi : (3.14 : ℝ) < Real.pi := Real.pi_gt_d2
  nlinarith

lemma normalAngleDeg_cex : normalAngleDeg (cexNormals 0) (cexNormals 1) = 120 := by
  rw [normalAngleDeg, arccosArg_cex, arccos_neg_half]
  have hpi : Real.pi ≠ 0 := Real.pi_ne_zero
  field_simp
  ring

lemma curveMean_cexXt : curveMean 2 cexXt = 1 / 200 := by
  rw [curveMean, Finset.sum_range_succ, Finset.sum_range_succ, Finset.sum_range_zero]
  simp [cexXt]
  norm_num

lemma curveMean_cexYt : curveMean 2 cexYt = 0 := by
  rw [curveMean, Finset.sum_range_succ, Finset.sum_range_succ, Finset.sum_range_zero]
  simp [cexYt]

lemma graspPt_cex0 : graspPt 2 cexXt cexYt 0 = (-(1 / 200), 0) := by
  rw [graspPt, curveMean_cexXt, curveMean_cexYt]
  simp [cexXt, cexYt]

lemma graspPt_cex1 : graspPt 2 cexXt cexYt 1 = (1 / 200, 0) := by
  rw [graspPt, curveMean_cexXt, curveMean_cexYt]
  simp [cexXt, cexYt]
  norm_num

lemma pairDist_cex : pairDist 2 cexXt cexYt 0 1 = 1 / 100 := by
  rw [pairDist, graspPt_cex0, graspPt_cex1]
  rw [show (((-(1 / 200) : ℝ), (0 : ℝ)).1 - ((1 / 200 : ℝ), (0 : ℝ)).1,
      ((-(1 / 200) : ℝ), (0 : ℝ)).2 - ((1 / 200 : ℝ), (0 : ℝ)).2) = ((-(1 / 100) : ℝ), (0 : ℝ))
    by norm_num]
  rw [norm2_x_zero]
  norm_num

lemma ptDistSum_cex : ptDistSum 2 cexXt cexYt 0 1 = 1 / 100 := by
  rw [ptDistSum, graspPt_cex0, graspPt_cex1, norm2_x_zero, norm2_x_zero]
  rw [abs_neg, abs_of_nonneg (by norm_num : (0 : ℝ) ≤ 1 / 200)]
  norm_num

lemma graspValue_cex : graspValue 2 cexXt cexYt 0 1 = 1 / 50 := by
  rw [graspValue, ptDistSum_cex, pairDist_cex]
  norm_num

lemma pairDist_cex_lt : pairDist 2 cexXt cexYt 0 1 < 0.08 := by
  rw [pairDist_cex]
  norm_num

lemma graspPairFilter_cex_eval :
    graspPairFilter 2 cexXt cexYt cexNormals [(0, 1)] = Except.ok ((0, 1), 1 / 50) := by
  have hcl : graspCandList 2 cexXt cexYt cexNormals [(0, 1)] = [((0, 1), 1 / 50)] := by
    simp only [graspCandList]
    rw [if_pos angleCode_cex_gt, if_pos pairDist_cex_lt, graspValue_cex]
  have hs : sortGraspList [(((0 : ℕ), (1 : ℕ)), (1 / 50 : ℝ))] = [((0, 1), 1 / 50)] := by
    simp [sortGraspList]
  rw [graspPairFilter, hcl, hs]

lemma angleCode_cex_same : angleCode (cexNormals 0) (cexNormals 0) = 0 := by
  rw [angleCode]
  have harg : dot2 (cexNormals 0) (cexNormals 0) /
      (norm2 (cexNormals 0) * norm2 (cexNormals 0)) = 1 := by
    rw [norm2_cexNormals_zero, cexNormals_zero]
    simp [dot2]
  rw [harg, Real.arccos_one]
  norm_num

/-- C1 counterexample: on the concrete candidate set with outward normals
(1,0) and (-1/2, sqrt(3)/2) at distance 0.01, the pair search returns the
pair although the true angle between the two outward normals is exactly 120
degrees, not strictly greater: the source converts radians with the constant
180/3.14, which admits true angles slightly at or below 120 degrees. -/
theorem graspPairFilter_angle_counterexample :
    graspPairFilter 2 cexXt cexYt cexNormals [(0, 1)] = Except.ok ((0, 1), 1 / 50) ∧
      normalAngleDeg (cexNormals 0) (cexNormals 1) = 120 ∧
      ((120 < normalAngleDeg (cexNormals 0) (cexNormals 1)) ↔ False) :=
  ⟨graspPairFilter_cex_eval, normalAngleDeg_cex, by rw [normalAngleDeg_cex]; simp⟩

/-- Witness for C1 amended at the concrete two-point candidate set. -/
theorem graspPairFilter_min_qualifying_witness :
    graspPairFilter 2 cexXt cexYt cexNormals [(0, 1)] = Except.ok ((0, 1), 1 / 50) ∧
      (((0, 1), (1 / 50 : ℝ)).1 ∈ [((0 : ℕ), (1 : ℕ))] ∧
        120 < angleCode (cexNormals (((0, 1), (1 / 50 : ℝ)).1).1)
          (cexNormals (((0, 1), (1 / 50 : ℝ)).1).2) ∧
        pairDist 2 cexXt cexYt (((0, 1), (1 / 50 : ℝ)).1).1 (((0, 1), (1 / 50 : ℝ)).1).2 < 0.08 ∧
        ((0, 1), (1 / 50 : ℝ)).2 = graspValue 2 cexXt cexYt (((0, 1), (1 / 50 : ℝ)).1).1
          (((0, 1), (1 / 50 : ℝ)).1).2 ∧
        ∀ ij ∈ [((0 : ℕ), (1 : ℕ))], 120 < angleCode (cexNormals ij.1) (cexNormals ij.2) →
          pairDist 2 cexXt cexYt ij.1 ij.2 < 0.08 →
          ((0, 1), (1 / 50 : ℝ)).2 ≤ graspValue 2 cexXt cexYt ij.1 ij.2) :=
  ⟨graspPairFilter_cex_eval,
    graspPairFilter_min_qualifying 2 cexXt cexYt cexNormals [(0, 1)] ((0, 1), 1 / 50)
      graspPairFilter_cex_eval⟩

/-- C3 counterexample: on the empty candidate set the pair search fails with
the untyped IndexError of list indexing, not with the typed NoGraspFoundError
asserted by the claim. -/
theorem graspPairFilter_empty_counterexample :
    graspPairFilter 0 (fun _ => 0) (fun _ => 0) (fun _ => ((1 : ℝ), 0)) [] =
        Except.error PyErr.indexError ∧
      ((graspPairFilter 0 (fun _ => 0) (fun _ => 0) (fun _ => ((1 : ℝ), 0)) [] =
        Except.error PyErr.noGraspFound) ↔ False) := by
  have h : graspPairFilter 0 (fun _ => 0) (fun _ => 0) (fun _ => ((1 : ℝ), 0)) [] =
      Except.error PyErr.indexError := rfl
  exact ⟨h, by rw [h]; simp⟩

/-- Witness for C3 amended at a one-pair candidate set whose only pair fails
the angle threshold. -/
theorem graspPairFilter_untyped_indexError_witness :
    (∀ ij ∈ [((0 : ℕ), (0 : ℕ))], ¬(120 < angleCode (cexNormals ij.1) (cexNormals ij.2) ∧
        pairDist 2 cexXt cexYt ij.1 ij.2 < 0.08)) ∧
      graspPairFilter 2 cexXt cexYt cexNormals [(0, 0)] = Except.error PyErr.indexError := by
  have hno : ∀ ij ∈ [((0 : ℕ), (0 : ℕ))],
      ¬(120 < angleCode (cexNormals ij.1) (cexNormals ij.2) ∧
        pairDist 2 cexXt cexYt ij.1 ij.2 < 0.08) := by
    intro ij hij
    have hij2 : ij = (0, 0) := by simpa using hij
    subst hij2
    rintro ⟨hang, -⟩
    rw [angleCode_cex_same] at hang
    norm_num at hang
  exact ⟨hno, graspPairFilter_untyped_indexError 2 cexXt cexYt cexNormals [(0, 0)] hno⟩

lemma densifyAux_length : ∀ (l : List (ℝ × ℝ)) (p : ℝ × ℝ),
    (densifyAux p l).length = 2 * l.length := by
  intro l
  induction l with
  | nil => intro p; rfl
  | cons q rest ih =>
    intro p
    simp only [densifyAux, List.length_cons, ih q]
    omega

lemma densify_length : ∀ l : List (ℝ × ℝ), (densify l).length = 2 * l.length - 1 := by
  intro l
  cases l with
  | nil => rfl
  | cons p rest =>
    simp only [densify, List.length_cons, densifyAux_length]
    omega

lemma densifyAux_getD_odd : ∀ (l : List (ℝ × ℝ)) (p : ℝ × ℝ) (i : ℕ), i < l.length →
    (densifyAux p l).getD (2 * i + 1) (0, 0) = l.getD i (0, 0) := by
  intro l
  induction l with
  | nil => intro p i hi; simp at hi
  | cons q rest ih =>
    intro p i hi
    cases i with
    | zero => rfl
    | succ j =>
      have hj : j < rest.length := by
        simp only [List.length_cons] at hi
        omega
      have harith : 2 * (j + 1) + 1 = 2 * j + 1 + 1 + 1 := by ring
      simp only [densifyAux, harith, List.getD_cons_succ]
      exact ih q j hj

lemma densifyAux_getD_even : ∀ (l : List (ℝ × ℝ)) (p : ℝ × ℝ) (i : ℕ), i < l.length →
    (densifyAux p l).getD (2 * i) (0, 0) =
      midPt ((p :: l).getD i (0, 0)) (l.getD i (0, 0)) := by
  intro l
  induction l with
  | nil => intro p i hi; simp at hi
  | cons q rest ih =>
    intro p i hi
    cases i with
    | zero => rfl
    | succ j =>
      have hj : j < rest.length := by
        simp only [List.length_cons] at hi
        omega
      have harith : 2 * (j + 1) = 2 * j + 1 + 1 := by ring
      simp only [densifyAux, harith, List.getD_cons_succ]
      exact ih q j hj

lemma densify_getD_even : ∀ (l : List (ℝ × ℝ)) (i : ℕ), i < l.length →
    (densify l).getD (2 * i) (0, 0) = l.getD i (0, 0) := by
  intro l i hi
  cases l with
  | nil => simp at hi
  | cons p rest =>
    cases i with
    | zero => rfl
    | succ j =>
      have hj : j < rest.length := by
        simp only [List.length_cons] at hi
        omega
      have harith : 2 * (j + 1) = 2 * j + 1 + 1 := by ring
      simp only [densify, harith, List.getD_cons_succ]
      exact densifyAux_getD_odd rest p j hj

lemma densify_getD_odd : ∀ (l : List (ℝ × ℝ)) (i : ℕ), i + 1 < l.length →
    (densify l).getD (2 * i + 1) (0, 0) =
      midPt (l.getD i (0, 0)) (l.getD (i + 1) (0, 0)) := by
  intro l i hi
  cases l with
  | nil => simp at hi
  | cons p rest =>
    have hj : i < rest.length := by
      simp only [List.length_cons] at hi
      omega
    simp only [densify, List.getD_cons_succ]
    rw [densifyAux_getD_even rest p i hj]

lemma foldl_maxByLen_mem : ∀ (t : List (List (ℝ × ℝ))) (acc : List (ℝ × ℝ)),
    t.foldl (fun acc x => if acc.length < x.length then x else acc) acc ∈ acc :: t := by
  intro t
  induction t with
  | nil => intro acc; simp
  | cons b r ih =>
    intro acc
    simp only [List.foldl_cons]
    have h := ih (if acc.length < b.length then b else acc)
    rcases List.mem_cons.mp h with h1 | h1
    · by_cases hc : acc.length < b.length
      · rw [h1, if_pos hc]
        exact List.mem_cons_of_mem _ (List.mem_cons_self _ _)
      · rw [h1, if_neg hc]
        exact List.mem_cons_self _ _
    · exact List.mem_cons_of_mem _ (List.mem_cons_of_mem _ h1)

lemma foldl_maxByLen_ge : ∀ (t : List (List (ℝ × ℝ))) (acc s : List (ℝ × ℝ)), s ∈ acc :: t →
    s.length ≤ (t.foldl (fun acc x => if acc.length < x.length then x else acc) acc).length := by
  intro t
  induction t with
  | nil =>
    intro acc s hs
    simp only [List.mem_singleton] at hs
    simp [hs]
  | cons b r ih =>
    intro acc s hs
    simp only [List.foldl_cons]
    rcases List.mem_cons.mp hs with rfl | hs2
    · have hacc : s.length ≤ (if s.length < b.length then b else s).length := by
        by_cases hc : s.length < b.length
        · rw [if_pos hc]; exact le_of_lt hc
        · rw [if_neg hc]
      exact le_trans hacc (ih _ _ (List.mem_cons_self _ _))
    · rcases List.mem_cons.mp hs2 with rfl | hs3
      · have hb : s.length ≤ (if acc.length < s.length then s else acc).length := by
          by_cases hc : acc.length < s.length
          · rw [if_pos hc]
          · rw [if_neg hc]; exact le_of_not_lt hc
        exact le_trans hb (ih _ _ (List.mem_cons_self _ _))
      · exact ih _ s (List.mem_cons_of_mem _ hs3)

lemma pyMaxByLen_mem {l : List (List (ℝ × ℝ))} (h : l ≠ []) : pyMaxByLen l ∈ l := by
  cases l with
  | nil => exact absurd rfl h
  | cons a t => exact foldl_maxByLen_mem t a

lemma pyMaxByLen_ge (l : List (List (ℝ × ℝ))) : ∀ s ∈ l, s.length ≤ (pyMaxByLen l).length := by
  intro s hs
  cases l with
  | nil => simp at hs
  | cons a t => exact foldl_maxByLen_ge t a s hs

lemma subarrays_ne_nil (pts : List (ℝ × ℝ)) : subarrays pts ≠ [] := by
  rw [subarrays]
  by_cases h : splitIndices pts = []
  · rw [if_pos h]; simp
  · rw [if_neg h]
    intro hc
    simp only [List.map_eq_nil, List.range_eq_nil, List.length_cons, List.length_append,
      List.length_singleton] at hc
    omega

lemma mem_splitIndices (pts : List (ℝ × ℝ)) (i : ℕ) :
    i ∈ splitIndices pts ↔ i < pts.length - 1 ∧
      0.03 < pdist (pts.getD i (0, 0)) (pts.getD (i + 1) (0, 0)) := by
  simp [splitIndices, List.mem_filter, List.mem_range]

/-- C10: before fitting, get_grasp computes the positions where consecutive
points are more than 0.03 apart, cuts the sequence there, keeps only a
subarray of maximal point count (the first such), and densifies it by
inserting the midpoint between every two consecutive points; the curve fit
then runs on exactly this densified longest subarray. -/
theorem fittedContour_spec (pts : List (ℝ × ℝ)) (h : 0 < pts.length) :
    (∀ i : ℕ, i ∈ splitIndices pts ↔ i < pts.length - 1 ∧
        0.03 < pdist (pts.getD i (0, 0)) (pts.getD (i + 1) (0, 0))) ∧
      pyMaxByLen (subarrays pts) ∈ subarrays pts ∧
      (∀ s ∈ subarrays pts, s.length ≤ (pyMaxByLen (subarrays pts)).length) ∧
      fittedContour pts = densify (pyMaxByLen (subarrays pts)) ∧
      getGrasp pts = getGraspOnContour (densify (pyMaxByLen (subarrays pts))) ∧
      (fittedContour pts).length = 2 * (pyMaxByLen (subarrays pts)).length - 1 ∧
      (∀ i : ℕ, i < (pyMaxByLen (subarrays pts)).length →
        (fittedContour pts).getD (2 * i) (0, 0) =
          (pyMaxByLen (subarrays pts)).getD i (0, 0)) ∧
      ∀ i : ℕ, i + 1 < (pyMaxByLen (subarrays pts)).length →
        (fittedContour pts).getD (2 * i + 1) (0, 0) =
          midPt ((pyMaxByLen (subarrays pts)).getD i (0, 0))
            ((pyMaxByLen (subarrays pts)).getD (i + 1) (0, 0)) :=
  ⟨mem_splitIndices pts, pyMaxByLen_mem (subarrays_ne_nil pts), pyMaxByLen_ge _, rfl, rfl,
    densify_length _, fun i hi => densify_getD_even _ i hi, fun i hi => densify_getD_odd _ i hi⟩

/-- Witness for C10 at a concrete two-point sequence. -/
theorem fittedContour_spec_witness :
    0 < ([((0 : ℝ), (0 : ℝ)), ((1 : ℝ), (0 : ℝ))] : List (ℝ × ℝ)).length ∧
      fittedContour [((0 : ℝ), (0 : ℝ)), ((1 : ℝ), (0 : ℝ))] =
        densify (pyMaxByLen (subarrays [((0 : ℝ), (0 : ℝ)), ((1 : ℝ), (0 : ℝ))])) ∧
      (fittedContour [((0 : ℝ), (0 : ℝ)), ((1 : ℝ), (0 : ℝ))]).length =
        2 * (pyMaxByLen (subarrays [((0 : ℝ), (0 : ℝ)), ((1 : ℝ), (0 : ℝ))])).length - 1 :=
  ⟨by norm_num, by
    have hx := fittedContour_spec [((0 : ℝ), (0 : ℝ)), ((1 : ℝ), (0 : ℝ))] (by norm_num)
    exact ⟨hx.2.2.2.1, hx.2.2.2.2.2.1⟩⟩
